import Mathlib

/-!
Verification of the `app` process-lifecycle coordinator (Go package `app`).

The definitions below are a shallow embedding of the Go source:

* `GoErr` models Go `error` values: sentinel errors (`errors.New` package
  variables), module-supplied base errors, `fmt.Errorf("...: %w", err)`
  wrapping, and `errors.Join` nodes.  A Go `error` result is `Option GoErr`
  (`none` = `nil`).  `errIsKind` models `errors.Is` against a sentinel.
* `Module` models a registered module by the results its lifecycle methods
  return (`Init`/`Start`/`Stop`), plus the optional background-error
  capability: `bg = none` means the module does not implement
  `BackgroundModule`; `bg = some none` means its `Err()` channel is closed
  (or yields a nil error) without reporting a failure; `bg = some (some e)`
  means the first receive on `Err()` yields the non-nil error `e`.
* The runner (`initAll`, `startAll`, `shutdownModules`, `shutdownAll`)
  additionally returns the list of lifecycle `Event`s it performed, in
  order, so call-order claims are provable.
* `Run` models `Application.Run`.  The two genuinely concurrent choice
  points are an `Oracle`: which arm of the main `select` fires
  (`Wake`: context cancelled, or a receive on the fan-in channel), and
  whether the graceful-shutdown timer beats `shutdownAll` in `shutdown`.
  `validWake` states which receives the fan-in channel can actually
  deliver: a forwarded error, or the nil value obtained after the channel
  is closed, which happens exactly when every reader finished without
  forwarding anything.
-/

namespace GoApp

/-- Sentinel error kinds (the `Err...` package variables in the Go source). -/
inductive ErrKind where
  | applicationAlreadyRunning
  | applicationAlreadyStopped
  | gracefulShutdownTimedOut
  | registrationClosed
  | moduleAlreadyRegistered
  | moduleNameEmpty
  | appNameEmpty
  | shutdownTimeoutNonPositive
  deriving DecidableEq, Repr

/-- Go `error` values as produced by this package. -/
inductive GoErr where
  | sentinel (k : ErrKind)
  | base (msg : String)
  | wrap (msg : String) (e : GoErr)
  | join (es : List GoErr)
  deriving Repr

mutual

/-- `errors.Is(e, sentinel-of-kind-t)`: unwraps `%w` wrapping and searches
all branches of `errors.Join` nodes. -/
def errIsKind : GoErr → ErrKind → Bool
  | .sentinel k, t => k = t
  | .base _, _ => false
  | .wrap _ e, t => errIsKind e t
  | .join es, t => errIsKindAny es t

/-- `errors.Is` over every branch of a join node. -/
def errIsKindAny : List GoErr → ErrKind → Bool
  | [], _ => false
  | e :: es, t => errIsKind e t || errIsKindAny es t

end

/-- `errors.Is` on a possibly-nil error. -/
def errIsOpt : Option GoErr → ErrKind → Bool
  | none, _ => false
  | some e, t => errIsKind e t

/-- `errors.Join(errs...)` applied to a list of non-nil errors:
nil when the list is empty, otherwise one join node. -/
def joinErrs : List GoErr → Option GoErr
  | [] => none
  | es => some (.join es)

/-- `errors.Join(a, b)` on two possibly-nil errors: discards nils. -/
def goJoin2 (a b : Option GoErr) : Option GoErr :=
  joinErrs (a.toList ++ b.toList)

/-- The `%q` verb of `fmt.Errorf` (quoted module name). -/
def quoteStr (s : String) : String := "\"" ++ s ++ "\""

/-- A registered module, described by the results of its lifecycle calls.
`bg = none`: not a `BackgroundModule`; `bg = some none`: background module
whose single read from `Err()` yields no failure (channel closed or nil
value); `bg = some (some e)`: the read yields the non-nil error `e`. -/
structure Module where
  name : String
  initRes : Option GoErr := none
  startRes : Option GoErr := none
  stopRes : Option GoErr := none
  bg : Option (Option GoErr) := none
  deriving Repr

/-- One lifecycle method invocation performed by the runner. -/
inductive Event where
  | initCall (moduleName : String)
  | startCall (moduleName : String)
  | stopCall (moduleName : String)
  deriving DecidableEq, Repr

/-- Whether an event is a `Start` invocation. -/
def isStartEvent : Event → Bool
  | .startCall _ => true
  | _ => false

/-- The module registry: ordered module sequence, registered-name set,
one-way locked flag. -/
structure Registry where
  modules : List Module := []
  names : List String := []
  locked : Bool := false

/-- `registry.register`: reject when locked, when the name is empty, and
when the name is already present; otherwise append the module and record
its name (the duplicate error is `fmt.Errorf("%w: %s", ErrModuleAlreadyRegistered, name)`). -/
def Registry.register (r : Registry) (m : Module) : Registry × Option GoErr :=
  if r.locked then (r, some (.sentinel .registrationClosed))
  else if m.name = "" then (r, some (.sentinel .moduleNameEmpty))
  else if r.names.contains m.name then
    (r, some (.wrap m.name (.sentinel .moduleAlreadyRegistered)))
  else
    ({ r with names := r.names ++ [m.name], modules := r.modules ++ [m] }, none)

/-- `registry.lock`: one-way transition. -/
def Registry.lock (r : Registry) : Registry := { r with locked := true }

/-- `registry.getAll`: snapshot of the ordered module sequence (the
defensive copy of a pure list is the list itself). -/
def Registry.getAll (r : Registry) : List Module := r.modules

/-- `runner.initAll`: Init in registration order; first failure returns
`fmt.Errorf("init module %q: %w", name, err)` immediately. -/
def initAll : List Module → List Event × Option GoErr
  | [] => ([], none)
  | m :: rest =>
    match m.initRes with
    | some e => ([.initCall m.name], some (.wrap ("init module " ++ quoteStr m.name) e))
    | none =>
      let t := initAll rest
      (.initCall m.name :: t.1, t.2)

/-- The name-wrapped stop error a failing module contributes in
`runner.shutdownModules`, if any. -/
def stopWrapOf (m : Module) : Option GoErr :=
  m.stopRes.map (fun e => .wrap ("stop module " ++ quoteStr m.name) e)

/-- The body of the `shutdownModules` loop, applied to the modules in the
order they are stopped (already reversed): one Stop call each, collecting
(never short-circuiting on) the name-wrapped errors. -/
def stopSeq : List Module → List Event × List GoErr
  | [] => ([], [])
  | m :: rest =>
    let t := stopSeq rest
    match m.stopRes with
    | some e => (.stopCall m.name :: t.1, .wrap ("stop module " ++ quoteStr m.name) e :: t.2)
    | none => (.stopCall m.name :: t.1, t.2)

/-- `runner.shutdownModules`: stop the given modules in strict reverse
list order, collect every failure, return `errors.Join` of the failures. -/
def shutdownModules (ms : List Module) : List Event × Option GoErr :=
  let t := stopSeq ms.reverse
  (t.1, joinErrs t.2)

/-- `runner.shutdownAll`: `shutdownModules` over the full registry snapshot. -/
def shutdownAll (r : Registry) : List Event × Option GoErr :=
  shutdownModules r.getAll

/-- Result of `runner.startAll`: the events performed, the returned
started-module slice (`[]` models the nil slice returned on failure), and
the returned error. -/
structure StartOut where
  events : List Event
  started : List Module
  err : Option GoErr
  deriving Repr

/-- The `startAll` loop with its `started` accumulator: Start in order; on
the first failure, roll back the started prefix via `shutdownModules` and
return `errors.Join(fmt.Errorf("start module %q: %w", name, err), shutdownErr)`
with a nil started slice. -/
def startAllLoop (started : List Module) : List Module → StartOut
  | [] => ⟨[], started, none⟩
  | m :: rest =>
    match m.startRes with
    | some e =>
      let sd := shutdownModules started
      ⟨.startCall m.name :: sd.1, [],
        goJoin2 (some (.wrap ("start module " ++ quoteStr m.name) e)) sd.2⟩
    | none =>
      let t := startAllLoop (started ++ [m]) rest
      ⟨.startCall m.name :: t.events, t.started, t.err⟩

/-- `runner.startAll` over a registry snapshot. -/
def startAll (ms : List Module) : StartOut := startAllLoop [] ms

/-- A lifecycle hook: each field is `none` when the callback is unset,
`some r` when it is set and returns `r` when invoked. -/
structure Hook where
  beforeStart : Option (Option GoErr) := none
  afterStart : Option (Option GoErr) := none
  beforeStop : Option (Option GoErr) := none
  afterStop : Option (Option GoErr) := none

/-- The shared shape of `runHooksBeforeStart` / `runHooksAfterStart` /
`runHooksBeforeStop` / `runHooksAfterStop`: run the set callbacks of one
boundary in hook order, returning the first error. -/
def runHookList (sel : Hook → Option (Option GoErr)) : List Hook → Option GoErr
  | [] => none
  | h :: rest =>
    match sel h with
    | some (some e) => some e
    | _ => runHookList sel rest

/-- The `Application` fields `Run` depends on: the registry snapshot in
force once `Run` locks it, the hooks, the graceful-shutdown timeout
(nanoseconds; `WithGracefulTimeout` rejects negatives), and the atomic
run-state flag. -/
structure App where
  modules : List Module := []
  hooks : List Hook := []
  shutdownTimeout : Nat := 10000000000
  isRunning : Bool := false

/-- Background-capable modules of a snapshot (`BackgroundModule` type
assertion in `collectBackgroundErrors`). -/
def bgModules (ms : List Module) : List Module := ms.filter (fun m => m.bg.isSome)

/-- The name-wrapped errors the per-module reader goroutines forward into
the fan-in channel: one entry per background module whose single `Err()`
read yields a non-nil error. -/
def forwarded (ms : List Module) : List GoErr :=
  ms.filterMap fun m =>
    match m.bg with
    | some (some e) => some (.wrap ("background module " ++ quoteStr m.name) e)
    | _ => none

/-- `Application.collectBackgroundErrors`: nil channel when no module is
background-capable, otherwise the fan-in channel, modelled by the multiset
of errors that will be forwarded into it before it is closed. -/
def collectBackgroundErrors (ms : List Module) : Option (List GoErr) :=
  if (bgModules ms).isEmpty then none else some (forwarded ms)

/-- One firing of the main `select` in `Run`: the run context is done, or
a receive on the fan-in channel delivers `v` (`none` models the nil value
a receive yields once the channel is closed and drained). -/
inductive Wake where
  | ctxDone
  | bgRecv (v : Option GoErr)
  deriving Repr

/-- Which receives the main `select` can actually perform on the fan-in
channel: nothing on a nil channel; a forwarded error; or the nil value
after close, which the completion tracker produces exactly when every
reader finished and nothing was forwarded. -/
def validWake (ms : List Module) : Wake → Prop
  | .ctxDone => True
  | .bgRecv none => bgModules ms ≠ [] ∧ forwarded ms = []
  | .bgRecv (some e) => bgModules ms ≠ [] ∧ e ∈ forwarded ms

/-- The environment's resolution of the concurrent choice points of one
`Run` call: which `select` arm fires, and whether the graceful-shutdown
timer fires before the concurrent `shutdownAll` finishes. -/
structure Oracle where
  wake : Wake
  timerWins : Bool

/-- Everything one `Run` call produces: the final application state, the
returned error, the lifecycle events performed, whether the
background-error `select` arm fired, and whether the `shutdown` routine
ran. -/
structure RunOut where
  app : App
  err : Option GoErr
  events : List Event
  bgBranch : Bool
  shutdownRan : Bool

/-- `Application.shutdown`: BeforeStop hooks (failure only logged), then
the stop race — with a positive timeout, `shutdownAll` races a timer and a
timer win yields `ErrGracefulShutdownTimedOut` (the abandoned runner
goroutine still performs the Stop calls); with timeout 0, `shutdownAll`
runs synchronously with no timer.  AfterStop hook failures are joined onto
the shutdown error.  The deferred block stamps stop time and resets the
run flag on every path. -/
def shutdownFn (a : App) (timerWins : Bool) : App × Option GoErr × List Event :=
  let _beforeStopErr := runHookList Hook.beforeStop a.hooks
  let sd := shutdownModules a.modules
  let raceErr : Option GoErr :=
    if 0 < a.shutdownTimeout then
      if timerWins then some (.sentinel .gracefulShutdownTimedOut) else sd.2
    else sd.2
  let finalErr : Option GoErr :=
    match runHookList Hook.afterStop a.hooks with
    | some e => goJoin2 raceErr (some (.wrap "after stop hook" e))
    | none => raceErr
  ({ a with isRunning := false }, finalErr, sd.1)

/-- `Application.Run`: CAS on the run flag, lock the registry, Init-all,
BeforeStart hooks, Start-all, AfterStart hooks (failure rolls the started
modules back via `shutdownModules`), then block on the `select` and run
the `shutdown` routine.  Mirrors the Go control flow exactly: the early
error returns do NOT pass through `shutdown`, so they do not touch the
run flag. -/
def Run (a : App) (orc : Oracle) : RunOut :=
  if a.isRunning then
    ⟨a, some (.sentinel .applicationAlreadyRunning), [], false, false⟩
  else
    let a1 : App := { a with isRunning := true }
    let ini := initAll a1.modules
    match ini.2 with
    | some e => ⟨a1, some e, ini.1, false, false⟩
    | none =>
      match runHookList Hook.beforeStart a1.hooks with
      | some e => ⟨a1, some (.wrap "before start hook" e), ini.1, false, false⟩
      | none =>
        let st := startAll a1.modules
        match st.err with
        | some e => ⟨a1, some e, ini.1 ++ st.events, false, false⟩
        | none =>
          match runHookList Hook.afterStart a1.hooks with
          | some e =>
            let sd := shutdownModules st.started
            ⟨a1, goJoin2 (some (.wrap "after start hook" e)) sd.2,
              ini.1 ++ st.events ++ sd.1, false, false⟩
          | none =>
            let tookBg : Bool :=
              match orc.wake with
              | .bgRecv _ => true
              | .ctxDone => false
            let sh := shutdownFn a1 orc.timerWins
            ⟨sh.1, sh.2.1, ini.1 ++ st.events ++ sh.2.2, tookBg, true⟩

/-- Context keys: the four unexported key types of the metadata carrier,
plus foreign keys owned by other packages. -/
inductive CtxKey where
  | appName
  | appVersion
  | appEnvironment
  | appStartTime
  | foreign (tag : Nat)
  deriving DecidableEq, Repr

/-- Context values: strings, `time.Time` values (modelled as `Nat`, with
`0` the zero time), and foreign values of other types. -/
inductive CtxVal where
  | str (s : String)
  | time (t : Nat)
  | foreign (tag : Nat)
  deriving DecidableEq, Repr

/-- A `context.Context` value chain: most recent `WithValue` entry first. -/
abbrev Ctx := List (CtxKey × CtxVal)

/-- `ctx.Value(key)`: innermost (most recent) entry for the key. -/
def ctxValue : Ctx → CtxKey → Option CtxVal
  | [], _ => none
  | (k, v) :: rest, key => if k = key then some v else ctxValue rest key

/-- The application metadata snapshot (`meta` in the Go source). -/
structure AppMeta where
  name : String := ""
  version : String := ""
  environment : String := ""
  startTime : Nat := 0
  stopTime : Nat := 0

/-- `meta.enrichContext`: four `context.WithValue` layers. -/
def enrichContext (m : AppMeta) (ctx : Ctx) : Ctx :=
  (CtxKey.appStartTime, .time m.startTime) ::
  (CtxKey.appEnvironment, .str m.environment) ::
  (CtxKey.appVersion, .str m.version) ::
  (CtxKey.appName, .str m.name) :: ctx

/-- `NameFromContext`: the value under the name key when it is a string,
the empty string otherwise (failed type assertion or absent key). -/
def NameFromContext (ctx : Ctx) : String :=
  match ctxValue ctx .appName with
  | some (.str s) => s
  | _ => ""

/-- `VersionFromContext`. -/
def VersionFromContext (ctx : Ctx) : String :=
  match ctxValue ctx .appVersion with
  | some (.str s) => s
  | _ => ""

/-- `EnvironmentFromContext`. -/
def EnvironmentFromContext (ctx : Ctx) : String :=
  match ctxValue ctx .appEnvironment with
  | some (.str s) => s
  | _ => ""

/-- `StartTimeFromContext`: the zero time when the key is absent or holds
a non-`time.Time` value. -/
def StartTimeFromContext (ctx : Ctx) : Nat :=
  match ctxValue ctx .appStartTime with
  | some (.time t) => t
  | _ => 0

/-- Whether a context key is one of the four application-metadata keys. -/
def isAppKey : CtxKey → Bool
  | .foreign _ => false
  | _ => true

/-- An error never satisfying `errors.Is(·, ErrGracefulShutdownTimedOut)`. -/
def noTimeoutKind (e : GoErr) : Prop :=
  errIsKind e .gracefulShutdownTimedOut = false

/-- A module none of whose lifecycle methods returns an error satisfying
`errors.Is(·, ErrGracefulShutdownTimedOut)`. -/
def moduleNoTimeoutKind (m : Module) : Prop :=
  (∀ e, m.initRes = some e → noTimeoutKind e) ∧
  (∀ e, m.startRes = some e → noTimeoutKind e) ∧
  (∀ e, m.stopRes = some e → noTimeoutKind e)

/-- A hook none of whose callbacks returns an error satisfying
`errors.Is(·, ErrGracefulShutdownTimedOut)`. -/
def hookNoTimeoutKind (h : Hook) : Prop :=
  (∀ e, h.beforeStart = some (some e) → noTimeoutKind e) ∧
  (∀ e, h.afterStart = some (some e) → noTimeoutKind e) ∧
  (∀ e, h.beforeStop = some (some e) → noTimeoutKind e) ∧
  (∀ e, h.afterStop = some (some e) → noTimeoutKind e)

/-- A module all of whose lifecycle methods succeed. -/
def mOk (n : String) : Module := { name := n }

/-- A module whose `Init` fails with `e`. -/
def mInitFail (n : String) (e : GoErr) : Module := { name := n, initRes := some e }

/-- A module whose `Start` fails with `e`. -/
def mStartFail (n : String) (e : GoErr) : Module := { name := n, startRes := some e }

/-- A module whose `Stop` fails with `e`. -/
def mStopFail (n : String) (e : GoErr) : Module := { name := n, stopRes := some e }

/-- A background-capable module whose error channel closes without ever
delivering a non-nil error. -/
def mBgClean (n : String) : Module := { name := n, bg := some none }

/-- An oracle in which the main `select` fires on context cancellation. -/
def orcCtx : Oracle := { wake := .ctxDone, timerWins := false }

/-- An oracle in which the main `select` fires on the nil receive from the
closed fan-in channel. -/
def orcBgClosed : Oracle := { wake := .bgRecv none, timerWins := false }

/-- An application with a single module whose `Init` fails. -/
def exInitFailApp : App :=
  { modules := [mInitFail "bad" (.base "init boom")], shutdownTimeout := 0 }

/-- An application with a single clean background module. -/
def exBgCleanApp : App :=
  { modules := [mBgClean "bgmod"], shutdownTimeout := 0 }

/-! ## Helper lemmas -/

theorem stopSeq_eq (l : List Module) :
    stopSeq l = (l.map (fun m => Event.stopCall m.name), l.filterMap stopWrapOf) := by
  induction l with
  | nil => rfl
  | cons m rest ih =>
    cases h : m.stopRes <;> simp [stopSeq, ih, stopWrapOf, h]

theorem shutdownModules_eq (ms : List Module) :
    shutdownModules ms =
      (ms.reverse.map (fun m => Event.stopCall m.name),
       joinErrs (ms.reverse.filterMap stopWrapOf)) := by
  simp [shutdownModules, stopSeq_eq]

theorem initAll_ok (l : List Module) (h : ∀ m ∈ l, m.initRes = none) :
    initAll l = (l.map (fun m => Event.initCall m.name), none) := by
  induction l with
  | nil => rfl
  | cons m rest ih =>
    have hm : m.initRes = none := h m (by simp)
    simp [initAll, hm, ih (fun x hx => h x (by simp [hx]))]

theorem initAll_append_fail (pre post : List Module) (m : Module) (e : GoErr)
    (hpre : ∀ x ∈ pre, x.initRes = none) (hm : m.initRes = some e) :
    initAll (pre ++ m :: post) =
      (pre.map (fun x => Event.initCall x.name) ++ [Event.initCall m.name],
       some (.wrap ("init module " ++ quoteStr m.name) e)) := by
  induction pre with
  | nil => simp [initAll, hm]
  | cons x rest ih =>
    have hx : x.initRes = none := hpre x (by simp)
    simp [initAll, hx, ih (fun y hy => hpre y (by simp [hy]))]

theorem startAllLoop_ok (acc l : List Module) (h : ∀ m ∈ l, m.startRes = none) :
    startAllLoop acc l = ⟨l.map (fun m => Event.startCall m.name), acc ++ l, none⟩ := by
  induction l generalizing acc with
  | nil => simp [startAllLoop]
  | cons m rest ih =>
    have hm : m.startRes = none := h m (by simp)
    simp [startAllLoop, hm, ih (acc ++ [m]) (fun x hx => h x (by simp [hx]))]

theorem startAllLoop_fail (acc pre post : List Module) (m : Module) (e : GoErr)
    (hpre : ∀ x ∈ pre, x.startRes = none) (hm : m.startRes = some e) :
    startAllLoop acc (pre ++ m :: post) =
      ⟨pre.map (fun x => Event.startCall x.name) ++
         Event.startCall m.name :: (shutdownModules (acc ++ pre)).1,
       [],
       goJoin2 (some (.wrap ("start module " ++ quoteStr m.name) e))
         (shutdownModules (acc ++ pre)).2⟩ := by
  induction pre generalizing acc with
  | nil => simp [startAllLoop, hm]
  | cons x rest ih =>
    have hx : x.startRes = none := hpre x (by simp)
    have hrec := ih (acc ++ [x]) (fun y hy => hpre y (by simp [hy]))
    simp [startAllLoop, hx, hrec]

theorem goJoin2_some_left (w : GoErr) (b : Option GoErr) :
    goJoin2 (some w) b = some (.join (w :: b.toList)) := by
  cases b <;> rfl

theorem errIsKindAny_eq_any (es : List GoErr) (t : ErrKind) :
    errIsKindAny es t = es.any (fun e => errIsKind e t) := by
  induction es with
  | nil => rfl
  | cons e rest ih => simp [errIsKindAny, ih]

theorem errIsOpt_joinErrs (es : List GoErr) (t : ErrKind) :
    errIsOpt (joinErrs es) t = es.any (fun e => errIsKind e t) := by
  cases es with
  | nil => rfl
  | cons e rest => simp [joinErrs, errIsOpt, errIsKind, errIsKindAny_eq_any]

theorem runHookList_mem (sel : Hook → Option (Option GoErr)) (l : List Hook) (e : GoErr)
    (h : runHookList sel l = some e) : ∃ hk ∈ l, sel hk = some (some e) := by
  induction l with
  | nil => simp [runHookList] at h
  | cons hk rest ih =>
    cases hsel : sel hk with
    | none =>
      simp only [runHookList, hsel] at h
      obtain ⟨x, hx, hsx⟩ := ih h
      exact ⟨x, by simp [hx], hsx⟩
    | some v =>
      cases v with
      | none =>
        simp only [runHookList, hsel] at h
        obtain ⟨x, hx, hsx⟩ := ih h
        exact ⟨x, by simp [hx], hsx⟩
      | some e2 =>
        simp only [runHookList, hsel, Option.some.injEq] at h
        exact ⟨hk, by simp, by simp [hsel, h]⟩

theorem joinErrs_eq_none (es : List GoErr) : joinErrs es = none ↔ es = [] := by
  cases es <;> simp [joinErrs]

theorem filterMap_stopWrapOf_length (l : List Module) :
    (l.filterMap stopWrapOf).length = (l.filter (fun m => m.stopRes.isSome)).length := by
  induction l with
  | nil => rfl
  | cons m rest ih =>
    cases h : m.stopRes <;> simp [stopWrapOf, h, ih]

theorem ctxValue_eq_none (ctx : Ctx) (k : CtxKey) (h : ∀ p ∈ ctx, p.1 ≠ k) :
    ctxValue ctx k = none := by
  induction ctx with
  | nil => rfl
  | cons p rest ih =>
    have hp : p.1 ≠ k := h p (by simp)
    cases p with
    | mk k1 v1 =>
      simp only [ctxValue]
      rw [if_neg hp]
      exact ih (fun q hq => h q (by simp [hq]))

/-! ## Claim theorems -/

/-- C5: `shutdownModules` calls `Stop` exactly once on every module of the
list, in strict reverse list order, keeps going past failing `Stop` calls,
returns nil exactly when no `Stop` failed and otherwise a joined error
with exactly one name-wrapped entry per failing module; `shutdownAll` is
`shutdownModules` on the full registry snapshot. -/
theorem c5_shutdownModules_reverse_collect (ms : List Module) (r : Registry) :
    (shutdownModules ms).1 = ms.reverse.map (fun m => Event.stopCall m.name)
    ∧ (shutdownModules ms).2 = joinErrs (ms.reverse.filterMap stopWrapOf)
    ∧ ((shutdownModules ms).2 = none ↔ ∀ m ∈ ms, m.stopRes = none)
    ∧ (ms.reverse.filterMap stopWrapOf).length
        = (ms.filter (fun m => m.stopRes.isSome)).length
    ∧ shutdownAll r = shutdownModules r.getAll := by
  have h := shutdownModules_eq ms
  refine ⟨by rw [h], by rw [h], ?_, ?_, rfl⟩
  · rw [h]
    simp only [joinErrs_eq_none, List.filterMap_eq_nil_iff, List.mem_reverse]
    constructor
    · intro hall m hm
      have := hall m hm
      cases hres : m.stopRes with
      | none => rfl
      | some e => rw [stopWrapOf, hres] at this; simp at this
    · intro hall m hm
      rw [stopWrapOf, hall m hm]
      rfl
  · rw [filterMap_stopWrapOf_length, List.filter_reverse, List.length_reverse]

/-- C5 witness: two modules, the second's Stop failing: both are stopped,
in reverse order, and the joined error holds the one wrapped failure. -/
theorem c5_witness :
    (shutdownModules [mOk "a", mStopFail "b" (.base "x")]).1
      = [Event.stopCall "b", Event.stopCall "a"]
    ∧ (shutdownModules [mOk "a", mStopFail "b" (.base "x")]).2
      = some (.join [GoErr.wrap ("stop module " ++ quoteStr "b") (.base "x")]) := by
  have h := c5_shutdownModules_reverse_collect [mOk "a", mStopFail "b" (.base "x")]
    ({} : Registry)
  refine ⟨?_, ?_⟩
  · simpa [mOk, mStopFail] using h.1
  · simpa [mOk, mStopFail, stopWrapOf, joinErrs] using h.2.1

/-- C7: `initAll` calls `Init` in registration order and, at the first
failure, returns the name-wrapped error at once: later modules are never
initialised and no module receives a `Stop` call. -/
theorem c7_initAll_first_failure (pre post : List Module) (m : Module) (e : GoErr)
    (hpre : ∀ x ∈ pre, x.initRes = none) (hm : m.initRes = some e) :
    initAll (pre ++ m :: post)
      = (pre.map (fun x => Event.initCall x.name) ++ [Event.initCall m.name],
         some (.wrap ("init module " ++ quoteStr m.name) e))
    ∧ ∀ n, Event.stopCall n ∉ (initAll (pre ++ m :: post)).1 := by
  have h1 := initAll_append_fail pre post m e hpre hm
  refine ⟨h1, fun n => ?_⟩
  rw [h1]
  simp

/-- C7 witness: three modules, the middle `Init` fails: only the first two
are initialised and the error wraps the failing module's name. -/
theorem c7_witness :
    initAll [mOk "a", mInitFail "b" (.base "x"), mOk "c"]
      = ([Event.initCall "a", Event.initCall "b"],
         some (.wrap ("init module " ++ quoteStr "b") (.base "x"))) := by
  have h := (c7_initAll_first_failure [mOk "a"] [mOk "c"] (mInitFail "b" (.base "x"))
      (.base "x") (by intro x hx; simp at hx; subst hx; rfl) rfl).1
  simpa [mOk, mInitFail] using h

/-- C6: `register` fails with the `RegistrationClosed` kind when locked,
else with `NameEmpty` on an empty name, else with `DuplicateName` on a
known name — each failure leaving the registry unchanged — and otherwise
appends the module at the end of the ordered sequence. -/
theorem c6_register_cases (r : Registry) (m : Module) :
    (r.locked = true →
      Registry.register r m = (r, some (.sentinel .registrationClosed))
      ∧ errIsOpt (Registry.register r m).2 .registrationClosed = true)
    ∧ (r.locked = false → m.name = "" →
      Registry.register r m = (r, some (.sentinel .moduleNameEmpty))
      ∧ errIsOpt (Registry.register r m).2 .moduleNameEmpty = true)
    ∧ (r.locked = false → m.name ≠ "" → r.names.contains m.name = true →
      (Registry.register r m).1 = r
      ∧ errIsOpt (Registry.register r m).2 .moduleAlreadyRegistered = true)
    ∧ (r.locked = false → m.name ≠ "" → r.names.contains m.name = false →
      (Registry.register r m).2 = none
      ∧ ((Registry.register r m).1).modules = r.modules ++ [m]
      ∧ ((Registry.register r m).1).names = r.names ++ [m.name]
      ∧ ((Registry.register r m).1).locked = r.locked) := by
  refine ⟨?_, ?_, ?_, ?_⟩
  · intro h
    simp [Registry.register, h, errIsOpt, errIsKind]
  · intro h1 h2
    simp [Registry.register, h1, h2, errIsOpt, errIsKind]
  · intro h1 h2 h3
    simp at h3
    simp [Registry.register, h1, h2, h3, errIsOpt, errIsKind]
  · intro h1 h2 h3
    simp at h3
    simp [Registry.register, h1, h2, h3]

/-- C6 witness: registering on a locked registry fails with
`RegistrationClosed` and leaves the registry untouched. -/
theorem c6_witness :
    Registry.register { modules := [], names := [], locked := true } (mOk "a")
      = ({ modules := [], names := [], locked := true },
         some (.sentinel .registrationClosed)) :=
  ((c6_register_cases { modules := [], names := [], locked := true } (mOk "a")).1 rfl).1

/-- C10: on a context never enriched with application metadata, the four
public accessors return zero values: empty strings and the zero time. -/
theorem c10_unenriched_accessors_zero (ctx : Ctx)
    (h : ∀ p ∈ ctx, isAppKey p.1 = false) :
    NameFromContext ctx = "" ∧ VersionFromContext ctx = ""
    ∧ EnvironmentFromContext ctx = "" ∧ StartTimeFromContext ctx = 0 := by
  have hk : ∀ k : CtxKey, isAppKey k = true → ctxValue ctx k = none := by
    intro k hkey
    refine ctxValue_eq_none ctx k (fun p hp heq => ?_)
    have := h p hp
    rw [heq, hkey] at this
    exact Bool.noConfusion this
  refine ⟨?_, ?_, ?_, ?_⟩
  · rw [NameFromContext, hk .appName rfl]
  · rw [VersionFromContext, hk .appVersion rfl]
  · rw [EnvironmentFromContext, hk .appEnvironment rfl]
  · rw [StartTimeFromContext, hk .appStartTime rfl]

/-- C10 witness: a context holding only a foreign entry yields zero values
from all four accessors. -/
theorem c10_witness :
    NameFromContext [(CtxKey.foreign 7, CtxVal.str "x")] = ""
    ∧ VersionFromContext [(CtxKey.foreign 7, CtxVal.str "x")] = ""
    ∧ EnvironmentFromContext [(CtxKey.foreign 7, CtxVal.str "x")] = ""
    ∧ StartTimeFromContext [(CtxKey.foreign 7, CtxVal.str "x")] = 0 :=
  c10_unenriched_accessors_zero [(CtxKey.foreign 7, CtxVal.str "x")]
    (by intro p hp; simp at hp; subst hp; rfl)

/-- C2: when `Start` succeeds on a prefix and fails on the next module,
`startAll` starts exactly the prefix and the failing module (in order),
rolls the whole prefix back with one `Stop` each in strict reverse order
even when `Stop` calls fail, never starts a later module, and returns the
name-wrapped start failure joined with the rollback stop failures. -/
theorem c2_startAll_rollback (pre post : List Module) (m : Module) (e : GoErr)
    (hpre : ∀ x ∈ pre, x.startRes = none) (hm : m.startRes = some e) :
    startAll (pre ++ m :: post) =
      ⟨pre.map (fun x => Event.startCall x.name) ++
         Event.startCall m.name :: pre.reverse.map (fun x => Event.stopCall x.name),
       [],
       some (.join (GoErr.wrap ("start module " ++ quoteStr m.name) e ::
         (joinErrs (pre.reverse.filterMap stopWrapOf)).toList))⟩
    ∧ ((startAll (pre ++ m :: post)).events.countP isStartEvent) = pre.length + 1 := by
  have h1 := startAllLoop_fail [] pre post m e hpre hm
  rw [List.nil_append] at h1
  rw [shutdownModules_eq, goJoin2_some_left] at h1
  have h2 : startAll (pre ++ m :: post) =
      ⟨pre.map (fun x => Event.startCall x.name) ++
         Event.startCall m.name :: pre.reverse.map (fun x => Event.stopCall x.name),
       [],
       some (.join (GoErr.wrap ("start module " ++ quoteStr m.name) e ::
         (joinErrs (pre.reverse.filterMap stopWrapOf)).toList))⟩ := h1
  refine ⟨h2, ?_⟩
  rw [h2]
  simp [List.countP_append, List.countP_cons, List.countP_map]
  simp [isStartEvent, Function.comp_def, List.countP_true, List.countP_false]

/-- C2 witness: `[ok a, failing b, c]`: Start runs on `a` and `b` only,
`a` is stopped in rollback, and the error is the joined start failure. -/
theorem c2_witness :
    startAll [mOk "a", mStartFail "b" (.base "x"), mOk "c"] =
      ⟨[Event.startCall "a", Event.startCall "b", Event.stopCall "a"], [],
       some (.join [GoErr.wrap ("start module " ++ quoteStr "b") (.base "x")])⟩ := by
  have h := (c2_startAll_rollback [mOk "a"] [mOk "c"] (mStartFail "b" (.base "x"))
      (.base "x") (by intro x hx; simp at hx; subst hx; rfl) rfl).1
  simpa [mOk, mStartFail, stopWrapOf, joinErrs] using h

theorem errIsOpt_goJoin2 (a b : Option GoErr) (t : ErrKind) :
    errIsOpt (goJoin2 a b) t = (errIsOpt a t || errIsOpt b t) := by
  rw [goJoin2, errIsOpt_joinErrs, List.any_append]
  cases a <;> cases b <;> simp [errIsOpt]

theorem shutdownModules_noTimeout (ms : List Module)
    (h : ∀ m ∈ ms, ∀ e, m.stopRes = some e → noTimeoutKind e) :
    errIsOpt (shutdownModules ms).2 .gracefulShutdownTimedOut = false := by
  have heq := shutdownModules_eq ms
  rw [heq, errIsOpt_joinErrs, List.any_eq_false]
  intro er hmem
  rw [List.mem_filterMap] at hmem
  obtain ⟨m, hm, hw⟩ := hmem
  rw [List.mem_reverse] at hm
  cases hres : m.stopRes with
  | none => rw [stopWrapOf, hres] at hw; exact Option.noConfusion hw
  | some e =>
    rw [stopWrapOf, hres] at hw
    simp at hw
    subst hw
    simp only [errIsKind]
    exact fun hc => absurd (h m hm e hres) (by simp [noTimeoutKind, hc])

theorem initAll_err_noTimeout (l : List Module)
    (h : ∀ m ∈ l, ∀ e, m.initRes = some e → noTimeoutKind e) :
    errIsOpt (initAll l).2 .gracefulShutdownTimedOut = false := by
  induction l with
  | nil => rfl
  | cons m rest ih =>
    cases hres : m.initRes with
    | some e =>
      simp only [initAll, hres, errIsOpt, errIsKind]
      exact h m (by simp) e hres
    | none =>
      simp only [initAll, hres]
      exact ih (fun x hx => h x (by simp [hx]))

theorem startAllLoop_err_noTimeout (acc l : List Module)
    (hacc : ∀ m ∈ acc, ∀ e, m.stopRes = some e → noTimeoutKind e)
    (hl : ∀ m ∈ l, (∀ e, m.startRes = some e → noTimeoutKind e)
          ∧ (∀ e, m.stopRes = some e → noTimeoutKind e)) :
    errIsOpt (startAllLoop acc l).err .gracefulShutdownTimedOut = false := by
  induction l generalizing acc with
  | nil => rfl
  | cons m rest ih =>
    cases hres : m.startRes with
    | some e =>
      simp only [startAllLoop, hres]
      rw [errIsOpt_goJoin2]
      have h1 : errIsOpt (some (GoErr.wrap ("start module " ++ quoteStr m.name) e))
          .gracefulShutdownTimedOut = false := by
        simp only [errIsOpt, errIsKind]
        exact (hl m (by simp)).1 e hres
      have h2 := shutdownModules_noTimeout acc hacc
      rw [h1, h2]
      rfl
    | none =>
      simp only [startAllLoop, hres]
      refine ih (acc ++ [m]) ?_ (fun x hx => hl x (by simp [hx]))
      intro x hx e he
      rcases List.mem_append.mp hx with hxa | hxm
      · exact hacc x hxa e he
      · simp at hxm
        subst hxm
        exact (hl x (by simp)).2 e he

theorem startAllLoop_none_started (acc l : List Module)
    (h : (startAllLoop acc l).err = none) :
    (startAllLoop acc l).started = acc ++ l := by
  induction l generalizing acc with
  | nil => simp [startAllLoop]
  | cons m rest ih =>
    cases hres : m.startRes with
    | some e =>
      exfalso
      simp only [startAllLoop, hres, goJoin2_some_left] at h
      exact Option.noConfusion h
    | none =>
      simp only [startAllLoop, hres] at h ⊢
      rw [ih (acc ++ [m]) h]
      simp

theorem runHookList_noTimeout (sel : Hook → Option (Option GoErr)) (l : List Hook)
    (hsel : ∀ hk ∈ l, ∀ e, sel hk = some (some e) → noTimeoutKind e) :
    errIsOpt (runHookList sel l) .gracefulShutdownTimedOut = false := by
  cases hr : runHookList sel l with
  | none => rfl
  | some e =>
    obtain ⟨hk, hmem, heq⟩ := runHookList_mem sel l e hr
    simpa [errIsOpt] using hsel hk hmem e heq

theorem run_bgBranch_ctxDone (a : App) (orc : Oracle) (h : orc.wake = Wake.ctxDone) :
    (Run a orc).bgBranch = false := by
  simp only [Run, h]
  split
  · rfl
  · split
    · rfl
    · split
      · rfl
      · split
        · rfl
        · split
          · rfl
          · rfl

theorem bgModules_eq_nil (ms : List Module) (h : ∀ m ∈ ms, m.bg = none) :
    bgModules ms = [] := by
  induction ms with
  | nil => rfl
  | cons m rest ih =>
    have hm := h m (by simp)
    rw [bgModules, List.filter_cons]
    rw [hm]
    simp only [Option.isSome_none, Bool.false_eq_true, if_false]
    exact ih (fun x hx => h x (by simp [hx]))

theorem shutdownFn_errIs_timeout (a : App) (tw : Bool)
    (hstop : ∀ m ∈ a.modules, ∀ e, m.stopRes = some e → noTimeoutKind e)
    (hhook : ∀ hk ∈ a.hooks, ∀ e, Hook.afterStop hk = some (some e) → noTimeoutKind e) :
    errIsOpt (shutdownFn a tw).2.1 .gracefulShutdownTimedOut
      = (decide (0 < a.shutdownTimeout) && tw) := by
  have hsd := shutdownModules_noTimeout a.modules hstop
  have hhs := runHookList_noTimeout Hook.afterStop a.hooks hhook
  cases hr : runHookList Hook.afterStop a.hooks with
  | none =>
    by_cases hp : 0 < a.shutdownTimeout
    · cases tw with
      | false =>
        have hv : (shutdownFn a false).2.1 = (shutdownModules a.modules).2 := by
          simp [shutdownFn, hr, hp]
        rw [hv, hsd]
        simp
      | true =>
        have hv : (shutdownFn a true).2.1
            = some (GoErr.sentinel .gracefulShutdownTimedOut) := by
          simp [shutdownFn, hr, hp]
        rw [hv]
        simp [hp, errIsOpt, errIsKind]
    · have hv : (shutdownFn a tw).2.1 = (shutdownModules a.modules).2 := by
        simp [shutdownFn, hr, hp]
      rw [hv, hsd]
      simp [hp]
  | some e =>
    have he : errIsOpt (some (GoErr.wrap "after stop hook" e))
        .gracefulShutdownTimedOut = false := by
      rw [hr] at hhs
      simpa [errIsOpt, errIsKind] using hhs
    by_cases hp : 0 < a.shutdownTimeout
    · cases tw with
      | false =>
        have hv : (shutdownFn a false).2.1
            = goJoin2 (shutdownModules a.modules).2
                (some (.wrap "after stop hook" e)) := by
          simp [shutdownFn, hr, hp]
        rw [hv, errIsOpt_goJoin2, hsd, he]
        simp
      | true =>
        have hv : (shutdownFn a true).2.1
            = goJoin2 (some (GoErr.sentinel .gracefulShutdownTimedOut))
                (some (.wrap "after stop hook" e)) := by
          simp [shutdownFn, hr, hp]
        rw [hv, errIsOpt_goJoin2, he]
        simp [hp, errIsOpt, errIsKind]
    · have hv : (shutdownFn a tw).2.1
          = goJoin2 (shutdownModules a.modules).2
              (some (.wrap "after stop hook" e)) := by
        simp [shutdownFn, hr, hp]
      rw [hv, errIsOpt_goJoin2, hsd, he]
      simp [hp]

theorem Run_err_noTimeout (a : App) (orc : Oracle) (hz : a.shutdownTimeout = 0)
    (hm : ∀ m ∈ a.modules, moduleNoTimeoutKind m)
    (hh : ∀ hk ∈ a.hooks, hookNoTimeoutKind hk) :
    errIsOpt (Run a orc).err .gracefulShutdownTimedOut = false := by
  have hinit := initAll_err_noTimeout a.modules (fun m hm' e he => (hm m hm').1 e he)
  have hbs := runHookList_noTimeout Hook.beforeStart a.hooks
    (fun hk hk' e he => (hh hk hk').1 e he)
  have hstl := startAllLoop_err_noTimeout [] a.modules (by simp)
    (fun m hm' => ⟨(hm m hm').2.1, (hm m hm').2.2⟩)
  have hst : errIsOpt (startAll a.modules).err .gracefulShutdownTimedOut = false := hstl
  have hasn := runHookList_noTimeout Hook.afterStart a.hooks
    (fun hk hk' e he => (hh hk hk').2.1 e he)
  have hsdst : ∀ ms2 : List Module, (∀ x ∈ ms2, x ∈ a.modules) →
      errIsOpt (shutdownModules ms2).2 .gracefulShutdownTimedOut = false := by
    intro ms2 hsub
    exact shutdownModules_noTimeout ms2 (fun m hm' e he => (hm m (hsub m hm')).2.2 e he)
  have hsdfn : errIsOpt (shutdownFn { a with isRunning := true } orc.timerWins).2.1
      .gracefulShutdownTimedOut = false := by
    rw [shutdownFn_errIs_timeout]
    · simp [hz]
    · exact fun m hm' e he => (hm m hm').2.2 e he
    · exact fun hk hk' e he => (hh hk hk').2.2.2 e he
  simp only [Run]
  split
  · rfl
  · split
    · next e heq =>
      rw [heq] at hinit
      exact hinit
    · split
      · next e heq =>
        rw [heq] at hbs
        simpa [errIsOpt, errIsKind] using hbs
      · split
        · next e heq =>
          rw [heq] at hst
          exact hst
        · split
          · next e heq =>
            rw [errIsOpt_goJoin2]
            rw [heq] at hasn
            have hwrap : errIsOpt (some (GoErr.wrap "after start hook" e))
                .gracefulShutdownTimedOut = false := by
              simpa [errIsOpt, errIsKind] using hasn
            rw [hwrap]
            next heqst _ =>
              have hstarted := startAllLoop_none_started [] a.modules heqst
              rw [List.nil_append] at hstarted
              have : errIsOpt (shutdownModules (startAll a.modules).started).2
                  .gracefulShutdownTimedOut = false := by
                rw [show (startAll a.modules).started = a.modules from hstarted]
                exact hsdst a.modules (fun x hx => hx)
              rw [this]
              rfl
          · exact hsdfn

/-- C1 (evaluation of the defect): `Run` on an application whose only
module fails `Init` returns the init error, but the run-state flag stays
`true` because the early return bypasses the `shutdown` routine's deferred
reset, so an immediately following `Run` call on the resulting state fails
with `AlreadyRunning` — contrary to the claim. -/
theorem c1_flag_not_reset_on_init_failure :
    (Run exInitFailApp orcCtx).err
        = some (.wrap ("init module " ++ quoteStr "bad") (.base "init boom"))
    ∧ (Run exInitFailApp orcCtx).app.isRunning = true
    ∧ (Run (Run exInitFailApp orcCtx).app orcCtx).err
        = some (.sentinel .applicationAlreadyRunning) :=
  ⟨rfl, rfl, rfl⟩

/-- C8: when Init-all, the BeforeStart hooks and Start-all all succeed and
an AfterStart hook fails, `Run` rolls the started modules back through
`shutdownModules` (reverse-order Stop of the full started list) and
returns the hook error joined with the rollback stop failures; the
`shutdown` routine itself is not involved. -/
theorem c8_afterStart_hook_rollback (a : App) (orc : Oracle) (e : GoErr)
    (hrun : a.isRunning = false)
    (hinit : ∀ m ∈ a.modules, m.initRes = none)
    (hstart : ∀ m ∈ a.modules, m.startRes = none)
    (hbs : runHookList Hook.beforeStart a.hooks = none)
    (has : runHookList Hook.afterStart a.hooks = some e) :
    (Run a orc).err = some (.join (GoErr.wrap "after start hook" e ::
        (joinErrs (a.modules.reverse.filterMap stopWrapOf)).toList))
    ∧ (Run a orc).events
        = a.modules.map (fun m => Event.initCall m.name)
          ++ a.modules.map (fun m => Event.startCall m.name)
          ++ a.modules.reverse.map (fun m => Event.stopCall m.name)
    ∧ (Run a orc).shutdownRan = false := by
  have hini := initAll_ok a.modules hinit
  have hstl := startAllLoop_ok [] a.modules hstart
  have hst : startAll a.modules
      = ⟨a.modules.map (fun m => Event.startCall m.name), a.modules, none⟩ := by
    rw [startAll, hstl]
    simp
  have hsd := shutdownModules_eq a.modules
  refine ⟨?_, ?_, ?_⟩ <;>
    simp [Run, hrun, hini, hbs, hst, has, hsd, goJoin2_some_left]

/-- C8 witness: one module, one hook whose AfterStart fails: `Run` returns
the joined hook error and the module is started then stopped. -/
theorem c8_witness :
    (Run { modules := [mOk "m1"],
           hooks := [{ afterStart := some (some (.base "hx")) }],
           shutdownTimeout := 0, isRunning := false } orcCtx).err
      = some (.join [GoErr.wrap "after start hook" (.base "hx")])
    ∧ (Run { modules := [mOk "m1"],
             hooks := [{ afterStart := some (some (.base "hx")) }],
             shutdownTimeout := 0, isRunning := false } orcCtx).events
      = [Event.initCall "m1", Event.startCall "m1", Event.stopCall "m1"] := by
  have h := c8_afterStart_hook_rollback
    { modules := [mOk "m1"],
      hooks := [{ afterStart := some (some (.base "hx")) }],
      shutdownTimeout := 0, isRunning := false } orcCtx (.base "hx")
    rfl (by intro m hm; simp at hm; subst hm; rfl)
    (by intro m hm; simp at hm; subst hm; rfl) rfl rfl
  refine ⟨?_, ?_⟩
  · have := h.1
    simpa [mOk, stopWrapOf, joinErrs] using this
  · have := h.2.1
    simpa [mOk] using this

/-- C9: with no background-capable module registered,
`collectBackgroundErrors` returns the nil channel, the only `select`
outcome the fan-in channel can ever produce is none at all (only context
cancellation can wake the loop), and `Run` never fires the
background-failure arm. -/
theorem c9_no_background_modules (ms : List Module) (h : ∀ m ∈ ms, m.bg = none) :
    collectBackgroundErrors ms = none
    ∧ (∀ w, validWake ms w → w = Wake.ctxDone)
    ∧ (∀ (a : App) (orc : Oracle), a.modules = ms → validWake ms orc.wake →
        (Run a orc).bgBranch = false) := by
  have hbg := bgModules_eq_nil ms h
  have hvw : ∀ w, validWake ms w → w = Wake.ctxDone := by
    intro w hw
    cases w with
    | ctxDone => rfl
    | bgRecv v =>
      exfalso
      cases v with
      | none => exact hw.1 hbg
      | some e2 => exact hw.1 hbg
  refine ⟨by simp [collectBackgroundErrors, hbg], hvw, ?_⟩
  intro a orc ha hw
  exact run_bgBranch_ctxDone a orc (hvw orc.wake hw)

/-- C9 witness: a single plain module yields the nil fan-in channel. -/
theorem c9_witness :
    collectBackgroundErrors [mOk "p"] = none :=
  (c9_no_background_modules [mOk "p"]
    (by intro m hm; simp at hm; subst hm; rfl)).1

/-- C3 counterexample: one background module whose error channel closes
cleanly.  The nil receive from the closed, drained fan-in channel is a
possible outcome of the main `select`, and `Run` does NOT distinguish it
from a module failure: the background arm fires (cancelling the context)
and `Run` proceeds to the shutdown routine — refuting "it does not begin
shutdown in response to it". -/
theorem c3_counterexample :
    validWake exBgCleanApp.modules (Wake.bgRecv none)
    ∧ (Run exBgCleanApp orcBgClosed).bgBranch = true
    ∧ (Run exBgCleanApp orcBgClosed).shutdownRan = true := by
  refine ⟨⟨?_, rfl⟩, rfl, rfl⟩
  simp [exBgCleanApp, bgModules, mBgClean]

/-- C3 (amended): when every background-capable module closes its channel
without a non-nil error, nothing is forwarded into the fan-in channel and
the completion tracker's close makes the nil receive the channel's only
possible `select` outcome; but `Run`'s control loop does not check the
receive's ok flag, so this clean drain fires the same background-failure
arm as a real failure and `Run` cancels the context and proceeds to
shutdown. -/
theorem c3_clean_drain_fires_failure_arm (a : App) (orc : Oracle)
    (hbgne : bgModules a.modules ≠ [])
    (hclean : ∀ m ∈ a.modules, ∀ e, m.bg ≠ some (some e))
    (hrun : a.isRunning = false)
    (hinit : ∀ m ∈ a.modules, m.initRes = none)
    (hstart : ∀ m ∈ a.modules, m.startRes = none)
    (hbs : runHookList Hook.beforeStart a.hooks = none)
    (has : runHookList Hook.afterStart a.hooks = none)
    (hwake : orc.wake = Wake.bgRecv none) :
    forwarded a.modules = []
    ∧ validWake a.modules orc.wake
    ∧ (Run a orc).bgBranch = true
    ∧ (Run a orc).shutdownRan = true := by
  have hfwd : forwarded a.modules = [] := by
    rw [forwarded, List.filterMap_eq_nil_iff]
    intro m hm
    cases hb : m.bg with
    | none => rfl
    | some v =>
      cases v with
      | none => rfl
      | some e => exact absurd hb (hclean m hm e)
  have hini := initAll_ok a.modules hinit
  have hstl := startAllLoop_ok [] a.modules hstart
  have hst : startAll a.modules
      = ⟨a.modules.map (fun m => Event.startCall m.name), a.modules, none⟩ := by
    rw [startAll, hstl]
    simp
  refine ⟨hfwd, ?_, ?_, ?_⟩
  · rw [hwake]
    exact ⟨hbgne, hfwd⟩
  · simp [Run, hrun, hini, hbs, hst, has, hwake]
  · simp [Run, hrun, hini, hbs, hst, has]

/-- C3 witness for the amended statement, at the one-clean-background-
module application. -/
theorem c3_witness :
    forwarded exBgCleanApp.modules = []
    ∧ validWake exBgCleanApp.modules orcBgClosed.wake
    ∧ (Run exBgCleanApp orcBgClosed).bgBranch = true
    ∧ (Run exBgCleanApp orcBgClosed).shutdownRan = true := by
  refine c3_clean_drain_fires_failure_arm exBgCleanApp orcBgClosed ?_ ?_ rfl ?_ ?_ rfl rfl rfl
  · simp [exBgCleanApp, bgModules, mBgClean]
  · intro m hm e
    simp [exBgCleanApp] at hm
    subst hm
    simp [mBgClean]
  · intro m hm
    simp [exBgCleanApp] at hm
    subst hm
    rfl
  · intro m hm
    simp [exBgCleanApp] at hm
    subst hm
    rfl

/-- C4: with a positive graceful timeout, the shutdown routine's error
satisfies `errors.Is(·, ErrGracefulShutdownTimedOut)` exactly when the
timer beats the concurrent `shutdownAll` (for any module Stop behavior);
with timeout 0 there is no timer and `Run` never returns the
`GracefulShutdownTimedOut` kind, whatever the modules do (assuming no
module or hook smuggles that sentinel in its own errors). -/
theorem c4_graceful_timeout_race (a : App) (tw : Bool) (orc : Oracle)
    (hm : ∀ m ∈ a.modules, moduleNoTimeoutKind m)
    (hh : ∀ hk ∈ a.hooks, hookNoTimeoutKind hk) :
    (0 < a.shutdownTimeout →
      errIsOpt (shutdownFn a tw).2.1 .gracefulShutdownTimedOut = tw)
    ∧ (a.shutdownTimeout = 0 →
      errIsOpt (Run a orc).err .gracefulShutdownTimedOut = false) := by
  constructor
  · intro hpos
    rw [shutdownFn_errIs_timeout a tw
      (fun m hm' e he => (hm m hm').2.2 e he)
      (fun hk hk' e he => (hh hk hk').2.2.2 e he)]
    simp [hpos]
  · intro hz
    exact Run_err_noTimeout a orc hz hm hh

/-- C4 witness: timeout 1, the timer wins the race: `errors.Is` reports
the timed-out kind; timeout 0: `Run` does not. -/
theorem c4_witness :
    errIsOpt (shutdownFn { modules := [mOk "w"], hooks := [],
                           shutdownTimeout := 1, isRunning := true } true).2.1
      .gracefulShutdownTimedOut = true
    ∧ errIsOpt (Run { modules := [mOk "w"], hooks := [],
                      shutdownTimeout := 0, isRunning := false } orcCtx).err
      .gracefulShutdownTimedOut = false := by
  have hmod : ∀ m ∈ [mOk "w"], moduleNoTimeoutKind m := by
    intro m hm
    simp at hm
    subst hm
    refine ⟨?_, ?_, ?_⟩ <;> intro e he <;> simp [mOk] at he
  have hhk : ∀ hk ∈ ([] : List Hook), hookNoTimeoutKind hk := by
    intro hk hhk
    simp at hhk
  constructor
  · exact (c4_graceful_timeout_race
      { modules := [mOk "w"], hooks := [], shutdownTimeout := 1, isRunning := true }
      true orcCtx hmod hhk).1 (by decide)
  · exact (c4_graceful_timeout_race
      { modules := [mOk "w"], hooks := [], shutdownTimeout := 0, isRunning := false }
      true orcCtx hmod hhk).2 rfl

end GoApp
